import Mathlib

/-!
Shallow embedding of the ContactX embedding-maintenance and semantic-search
core: the `generate-embeddings` edge function (per-contact batch loop with
hash-based change detection and upsert), the SQL helpers
`generate_embedding_content` and `find_similar_contacts` from migration
`003_ai_tables.sql`, and the `semantic-search` edge function's query
validation.  External collaborators (the SHA-256 hash, the OpenAI embedding
call, store write failures, the pgvector cosine-distance operator) are
modelled as explicit function parameters.
-/

namespace ContactX

/-- A row of `public.contacts` (the fields the embedding core reads). -/
structure Contact where
  id : Nat
  userId : Nat
  deletedAt : Option Nat
  firstName : Option String
  lastName : Option String
  company : Option String
  jobTitle : Option String
  howWeMet : Option String
  deriving Repr, DecidableEq

/-- A row of `public.contact_metadata` (LEFT JOINed by content generation). -/
structure ContactMetadata where
  contactId : Nat
  location : Option String
  interests : Option String
  deriving Repr, DecidableEq

/-- A row of `public.notes`. -/
structure Note where
  contactId : Nat
  content : String
  createdAt : Nat
  deriving Repr, DecidableEq

/-- A join row of `public.contact_tags` with `public.tags` (just the name). -/
structure ContactTag where
  contactId : Nat
  tagName : String
  deriving Repr, DecidableEq

/-- The relational database state read by the embedding core. -/
structure Database where
  contacts : List Contact
  metadata : List ContactMetadata
  notes : List Note
  tags : List ContactTag
  deriving Repr, DecidableEq

/-- Postgres `CONCAT_WS(sep, ...)`: skips NULL arguments but keeps empty
strings. -/
def concatWs (sep : String) (parts : List (Option String)) : String :=
  String.intercalate sep (parts.filterMap id)

/-- Insert `a` in front of the first element it compares `le` to. -/
def insertSorted (le : α → α → Bool) (a : α) : List α → List α
  | [] => [a]
  | b :: l => if le a b then a :: b :: l else b :: insertSorted le a l

/-- Stable sort (models SQL `ORDER BY`); structurally recursive so that
concrete runs reduce definitionally. -/
def sortBy (le : α → α → Bool) : List α → List α
  | [] => []
  | a :: l => insertSorted le a (sortBy le l)

/-- SQL function `generate_embedding_content(p_contact_id)`: concatenates the
contact's identity fields and metadata, the contents of the five most recent
notes (newest first), and the tag names.  `SELECT ... INTO` leaves the
variable NULL when no row matches; `string_agg` is NULL on the empty set. -/
def generate_embedding_content (db : Database) (cid : Nat) : String :=
  let vContent : Option String :=
    (db.contacts.find? (fun c => decide (c.id = cid))).map (fun c =>
      let cm := db.metadata.find? (fun m => decide (m.contactId = cid))
      concatWs " " [c.firstName, c.lastName, c.company, c.jobTitle, c.howWeMet,
        cm.bind (fun m => m.location), cm.bind (fun m => m.interests)])
  let recent : List Note :=
    (sortBy (fun n1 n2 => decide (n2.createdAt ≤ n1.createdAt))
      (db.notes.filter (fun n => decide (n.contactId = cid)))).take 5
  let vNotes : Option String :=
    if recent.isEmpty then none
    else some (String.intercalate " " (recent.map (fun n => n.content)))
  let tagNames : List String :=
    (db.tags.filter (fun t => decide (t.contactId = cid))).map (fun t => t.tagName)
  let vTags : Option String :=
    if tagNames.isEmpty then none
    else some (String.intercalate " " tagNames)
  concatWs " " [vContent, vNotes, vTags]

/-- A row of `public.contact_embeddings` (the fields the core writes/reads).
`contact_id` carries a UNIQUE constraint in the schema. -/
structure EmbRow where
  contact_id : Nat
  user_id : Nat
  embedding : List ℚ
  content_hash : String
  source_text : String
  deriving Repr, DecidableEq

/-- Supabase `.upsert` keyed on the unique `contact_id`: replace the existing
row when one exists, otherwise insert. -/
def upsertEmb (store : List EmbRow) (row : EmbRow) : List EmbRow :=
  if store.any (fun r => decide (r.contact_id = row.contact_id)) then
    store.map (fun r => if r.contact_id = row.contact_id then row else r)
  else store ++ [row]

/-- The UNIQUE constraint on `contact_embeddings.contact_id`. -/
def keysNodup (store : List EmbRow) : Prop :=
  (store.map (fun r => r.contact_id)).Nodup

/-- The `results` accumulator of the `generate-embeddings` batch loop. -/
structure BatchResults where
  processed : Nat
  created : Nat
  updated : Nat
  skipped : Nat
  errors : List String
  deriving Repr, DecidableEq

def emptyResults : BatchResults := ⟨0, 0, 0, 0, []⟩

/-- Loop state: the accumulator, the embedding-store table, and ghost counters
for calls to the embedding provider and to the `contact_embeddings` table. -/
structure LoopState where
  results : BatchResults
  store : List EmbRow
  providerCalls : Nat
  storeCalls : Nat
  deriving Repr, DecidableEq

def initialState (store0 : List EmbRow) : LoopState :=
  ⟨emptyResults, store0, 0, 0⟩

/-- JS `content.substring(0, n)`: the first `n` characters. -/
def strTake (s : String) (n : Nat) : String :=
  ⟨s.data.take n⟩

/-- The JS test `existing && existing.content_hash === contentHash`. -/
def hashHit (existing : Option EmbRow) (contentHash : String) : Bool :=
  match existing with
  | some r => decide (r.content_hash = contentHash)
  | none => false

/-- The next loop iteration will count this entity as skipped: its composed
text is empty, or a stored row for it carries the hash of that text. -/
def skipReady (hash : String → String) (db : Database) (store : List EmbRow)
    (cid : Nat) : Prop :=
  generate_embedding_content db cid = "" ∨
  ∃ r, store.find? (fun r2 => decide (r2.contact_id = cid)) = some r ∧
    r.content_hash = hash (generate_embedding_content db cid)

/-- One iteration of the per-contact loop of `generate-embeddings`:
compose content; skip when empty; skip when a stored row's hash matches;
otherwise call the provider, then upsert; provider or store failures append
`"cid: msg"` to the error list. -/
def processOne (hash : String → String) (embed : String → Except String (List ℚ))
    (storeFail : Nat → Option String) (db : Database) (userId : Nat)
    (st : LoopState) (cid : Nat) : LoopState :=
  let content := generate_embedding_content db cid
  if content = "" then
    { st with results := { st.results with skipped := st.results.skipped + 1 } }
  else
    let contentHash := hash content
    let existing := st.store.find? (fun r => decide (r.contact_id = cid))
    let st1 : LoopState := { st with storeCalls := st.storeCalls + 1 }
    if hashHit existing contentHash then
      { st1 with results := { st1.results with skipped := st1.results.skipped + 1 } }
    else
      match embed content with
      | Except.error msg =>
        { st1 with
            providerCalls := st1.providerCalls + 1,
            results := { st1.results with
              errors := st1.results.errors ++ [s!"{cid}: {msg}"] } }
      | Except.ok vec =>
        let st2 : LoopState := { st1 with providerCalls := st1.providerCalls + 1 }
        match storeFail cid with
        | some msg =>
          { st2 with
              storeCalls := st2.storeCalls + 1,
              results := { st2.results with
                errors := st2.results.errors ++ [s!"{cid}: {msg}"] } }
        | none =>
          let row : EmbRow := ⟨cid, userId, vec, contentHash, strTake content 500⟩
          { st2 with
              store := upsertEmb st2.store row,
              storeCalls := st2.storeCalls + 1,
              results :=
                if existing.isSome then
                  { st2.results with
                      updated := st2.results.updated + 1,
                      processed := st2.results.processed + 1 }
                else
                  { st2.results with
                      created := st2.results.created + 1,
                      processed := st2.results.processed + 1 } }

/-- Target selection of `generate-embeddings`: an explicit `contactId` gives a
single-element batch with no ownership or deletion check; otherwise up to
`batchSize` of the caller's non-deleted contacts. -/
def selectContactIds (db : Database) (userId : Nat) (contactId? : Option Nat)
    (batchSize : Nat) : List Nat :=
  match contactId? with
  | some cid => [cid]
  | none =>
    ((db.contacts.filter
        (fun c => decide (c.userId = userId ∧ c.deletedAt = none))).take
      batchSize).map (fun c => c.id)

/-- The batch loop over an explicit id list. -/
def runLoop (hash : String → String) (embed : String → Except String (List ℚ))
    (storeFail : Nat → Option String) (db : Database) (userId : Nat)
    (ids : List Nat) (store0 : List EmbRow) : LoopState :=
  ids.foldl (processOne hash embed storeFail db userId) (initialState store0)

/-- The full `generate-embeddings` run: select targets, then loop. -/
def runBatch (hash : String → String) (embed : String → Except String (List ℚ))
    (storeFail : Nat → Option String) (db : Database) (store0 : List EmbRow)
    (userId : Nat) (contactId? : Option Nat) (batchSize : Nat) : LoopState :=
  runLoop hash embed storeFail db userId
    (selectContactIds db userId contactId? batchSize) store0

/-- A row returned by `find_similar_contacts`. -/
structure SimilarMatch where
  contact_id : Nat
  similarity : ℚ
  first_name : Option String
  last_name : Option String
  company : Option String
  job_title : Option String
  deriving Repr, DecidableEq

/-- SQL function `find_similar_contacts`: join embeddings with their contacts,
keep rows of the calling user whose contact is not soft-deleted and whose
similarity `1 - (embedding <=> query)` clears the threshold, order by distance
ascending, and take `p_limit`.  The pgvector cosine-distance operator `<=>` is
the parameter `dist`. -/
def find_similar_contacts (db : Database) (store : List EmbRow)
    (dist : List ℚ → List ℚ → ℚ) (p_user_id : Nat) (q : List ℚ)
    (p_limit : Nat) (p_threshold : ℚ) : List SimilarMatch :=
  let joined : List (EmbRow × Contact) :=
    store.filterMap (fun ce =>
      (db.contacts.find? (fun c => decide (c.id = ce.contact_id))).map
        (fun c => (ce, c)))
  let filtered := joined.filter (fun p =>
    decide (p.1.user_id = p_user_id ∧ p.2.deletedAt = none ∧
      p_threshold ≤ 1 - dist p.1.embedding q))
  let sorted := sortBy
    (fun p1 p2 => decide (dist p1.1.embedding q ≤ dist p2.1.embedding q)) filtered
  (sorted.take p_limit).map (fun p =>
    ⟨p.2.id, 1 - dist p.1.embedding q, p.2.firstName, p.2.lastName,
      p.2.company, p.2.jobTitle⟩)

/-- A JSON value as far as the `semantic-search` handler inspects it. -/
inductive JVal where
  | jstr (s : String)
  | jnum (n : ℚ)
  | jbool (b : Bool)
  | jnull
  deriving Repr, DecidableEq

/-- The body of a `semantic-search` request after JSON parsing. -/
structure SearchRequest where
  query : Option JVal
  limit : Nat
  similarityThreshold : ℚ
  deriving Repr, DecidableEq

/-- Responses the `semantic-search` handler can produce (after auth). -/
inductive SearchResponse where
  | validationError (msg : String)
  | serverError (msg : String)
  | success (results : List SimilarMatch) (count : Nat)
  deriving Repr, DecidableEq

/-- The `semantic-search` handler body after authentication: the JS guard
`if (!query || typeof query !== 'string')` rejects exactly those requests
whose `query` is not a non-empty string.  The second component counts calls
to the embedding provider. -/
def semanticSearch (embed : String → Except String (List ℚ))
    (db : Database) (store : List EmbRow) (dist : List ℚ → List ℚ → ℚ)
    (userId : Nat) (req : SearchRequest) : SearchResponse × Nat :=
  match req.query with
  | some (JVal.jstr s) =>
    if s = "" then (SearchResponse.validationError "Query is required", 0)
    else
      match embed s with
      | Except.error msg => (SearchResponse.serverError msg, 1)
      | Except.ok emb =>
        let results := find_similar_contacts db store dist userId emb
          req.limit req.similarityThreshold
        (SearchResponse.success results results.length, 1)
  | _ => (SearchResponse.validationError "Query is required", 0)

/-! ### Concrete example data used by witnesses and counterexamples -/

/-- Example database: contact 1 (user 7, alive), contact 2 (user 7,
soft-deleted), contact 3 (user 8, alive). -/
def exDb : Database :=
  ⟨[⟨1, 7, none, some "Ann", some "Lee", none, some "Engineer", none⟩,
    ⟨2, 7, some 3, some "Bob", none, none, none, none⟩,
    ⟨3, 8, none, some "Cat", none, none, none, none⟩],
   [⟨1, some "Paris", none⟩],
   [⟨1, "met at conf", 10⟩, ⟨1, "likes hiking", 20⟩],
   [⟨1, "friend"⟩]⟩

def exStore : List EmbRow := [⟨1, 7, [1], "h", "s"⟩]

/-- Five single-field contacts of user 7, ids 11–15. -/
def ex5Db : Database :=
  ⟨[⟨11, 7, none, some "A", none, none, none, none⟩,
    ⟨12, 7, none, some "B", none, none, none, none⟩,
    ⟨13, 7, none, some "C", none, none, none, none⟩,
    ⟨14, 7, none, some "D", none, none, none, none⟩,
    ⟨15, 7, none, some "E", none, none, none, none⟩],
   [], [], []⟩

/-- A provider that fails exactly on the text "C". -/
def exEmbed : String → Except String (List ℚ) :=
  fun s => if s = "C" then Except.error "boom" else Except.ok [1]

/-! ### Branch lemmas for the per-contact loop body -/

theorem po_empty (hash : String → String) (embed : String → Except String (List ℚ))
    (storeFail : Nat → Option String) (db : Database) (userId : Nat)
    (st : LoopState) (cid : Nat)
    (hc : generate_embedding_content db cid = "") :
    processOne hash embed storeFail db userId st cid =
      { st with results := { st.results with skipped := st.results.skipped + 1 } } := by
  simp [processOne, hc]

theorem po_skip (hash : String → String) (embed : String → Except String (List ℚ))
    (storeFail : Nat → Option String) (db : Database) (userId : Nat)
    (st : LoopState) (cid : Nat)
    (hc : generate_embedding_content db cid ≠ "")
    (hh : hashHit (st.store.find? (fun r => decide (r.contact_id = cid)))
        (hash (generate_embedding_content db cid)) = true) :
    processOne hash embed storeFail db userId st cid =
      { st with storeCalls := st.storeCalls + 1,
                results := { st.results with skipped := st.results.skipped + 1 } } := by
  simp [processOne, hc, hh]

theorem po_embed_err (hash : String → String) (embed : String → Except String (List ℚ))
    (storeFail : Nat → Option String) (db : Database) (userId : Nat)
    (st : LoopState) (cid : Nat) (msg : String)
    (hc : generate_embedding_content db cid ≠ "")
    (hh : hashHit (st.store.find? (fun r => decide (r.contact_id = cid)))
        (hash (generate_embedding_content db cid)) = false)
    (he : embed (generate_embedding_content db cid) = Except.error msg) :
    processOne hash embed storeFail db userId st cid =
      { st with storeCalls := st.storeCalls + 1,
                providerCalls := st.providerCalls + 1,
                results := { st.results with
                  errors := st.results.errors ++ [s!"{cid}: {msg}"] } } := by
  simp [processOne, hc, hh, he]

theorem po_store_err (hash : String → String) (embed : String → Except String (List ℚ))
    (storeFail : Nat → Option String) (db : Database) (userId : Nat)
    (st : LoopState) (cid : Nat) (v : List ℚ) (msg : String)
    (hc : generate_embedding_content db cid ≠ "")
    (hh : hashHit (st.store.find? (fun r => decide (r.contact_id = cid)))
        (hash (generate_embedding_content db cid)) = false)
    (he : embed (generate_embedding_content db cid) = Except.ok v)
    (hsf : storeFail cid = some msg) :
    processOne hash embed storeFail db userId st cid =
      { st with storeCalls := st.storeCalls + 2,
                providerCalls := st.providerCalls + 1,
                results := { st.results with
                  errors := st.results.errors ++ [s!"{cid}: {msg}"] } } := by
  simp [processOne, hc, hh, he, hsf]

theorem po_write (hash : String → String) (embed : String → Except String (List ℚ))
    (storeFail : Nat → Option String) (db : Database) (userId : Nat)
    (st : LoopState) (cid : Nat) (v : List ℚ)
    (hc : generate_embedding_content db cid ≠ "")
    (hh : hashHit (st.store.find? (fun r => decide (r.contact_id = cid)))
        (hash (generate_embedding_content db cid)) = false)
    (he : embed (generate_embedding_content db cid) = Except.ok v)
    (hsf : storeFail cid = none) :
    processOne hash embed storeFail db userId st cid =
      { st with
          store := upsertEmb st.store
            ⟨cid, userId, v, hash (generate_embedding_content db cid),
              strTake (generate_embedding_content db cid) 500⟩,
          providerCalls := st.providerCalls + 1,
          storeCalls := st.storeCalls + 2,
          results :=
            if (st.store.find? (fun r => decide (r.contact_id = cid))).isSome then
              { st.results with updated := st.results.updated + 1,
                                processed := st.results.processed + 1 }
            else
              { st.results with created := st.results.created + 1,
                                processed := st.results.processed + 1 } } := by
  simp [processOne, hc, hh, he, hsf]

/-- Every loop iteration has one of five shapes: skip (empty), skip (hash
match), provider error, store error, or a successful write. -/
theorem processOne_shape (hash : String → String)
    (embed : String → Except String (List ℚ)) (storeFail : Nat → Option String)
    (db : Database) (userId : Nat) (st : LoopState) (cid : Nat) :
    processOne hash embed storeFail db userId st cid =
        { st with results := { st.results with skipped := st.results.skipped + 1 } } ∨
    processOne hash embed storeFail db userId st cid =
        { st with storeCalls := st.storeCalls + 1,
                  results := { st.results with skipped := st.results.skipped + 1 } } ∨
    (∃ e, processOne hash embed storeFail db userId st cid =
        { st with storeCalls := st.storeCalls + 1,
                  providerCalls := st.providerCalls + 1,
                  results := { st.results with errors := st.results.errors ++ [e] } }) ∨
    (∃ e, processOne hash embed storeFail db userId st cid =
        { st with storeCalls := st.storeCalls + 2,
                  providerCalls := st.providerCalls + 1,
                  results := { st.results with errors := st.results.errors ++ [e] } }) ∨
    (∃ row : EmbRow, row.contact_id = cid ∧ row.user_id = userId ∧
      (processOne hash embed storeFail db userId st cid =
          { st with store := upsertEmb st.store row,
                    providerCalls := st.providerCalls + 1,
                    storeCalls := st.storeCalls + 2,
                    results := { st.results with
                      created := st.results.created + 1,
                      processed := st.results.processed + 1 } } ∨
       processOne hash embed storeFail db userId st cid =
          { st with store := upsertEmb st.store row,
                    providerCalls := st.providerCalls + 1,
                    storeCalls := st.storeCalls + 2,
                    results := { st.results with
                      updated := st.results.updated + 1,
                      processed := st.results.processed + 1 } })) := by
  by_cases hc : generate_embedding_content db cid = ""
  · exact Or.inl (po_empty hash embed storeFail db userId st cid hc)
  cases hh : hashHit (st.store.find? (fun r => decide (r.contact_id = cid)))
      (hash (generate_embedding_content db cid)) with
  | true => exact Or.inr (Or.inl (po_skip hash embed storeFail db userId st cid hc hh))
  | false =>
    cases he : embed (generate_embedding_content db cid) with
    | error msg =>
      exact Or.inr (Or.inr (Or.inl
        ⟨_, po_embed_err hash embed storeFail db userId st cid msg hc hh he⟩))
    | ok v =>
      cases hsf : storeFail cid with
      | some msg =>
        exact Or.inr (Or.inr (Or.inr (Or.inl
          ⟨_, po_store_err hash embed storeFail db userId st cid v msg hc hh he hsf⟩)))
      | none =>
        refine Or.inr (Or.inr (Or.inr (Or.inr
          ⟨⟨cid, userId, v, hash (generate_embedding_content db cid),
            strTake (generate_embedding_content db cid) 500⟩, rfl, rfl, ?_⟩)))
        have hw := po_write hash embed storeFail db userId st cid v hc hh he hsf
        cases hex : (st.store.find? (fun r => decide (r.contact_id = cid))).isSome with
        | true => right; rw [hw, hex]; simp
        | false => left; rw [hw, hex]; simp

theorem hashHit_iff (existing : Option EmbRow) (h : String) :
    hashHit existing h = true ↔ ∃ r, existing = some r ∧ r.content_hash = h := by
  cases existing <;> simp [hashHit]

/-- A successful write for an entity with no stored row: the record is
appended and the entity counts as created and processed. -/
theorem po_write_fresh (hash : String → String)
    (embed : String → Except String (List ℚ)) (storeFail : Nat → Option String)
    (db : Database) (userId : Nat) (st : LoopState) (cid : Nat) (v : List ℚ)
    (hc : generate_embedding_content db cid ≠ "")
    (hf : st.store.find? (fun r => decide (r.contact_id = cid)) = none)
    (he : embed (generate_embedding_content db cid) = Except.ok v)
    (hsf : storeFail cid = none) :
    processOne hash embed storeFail db userId st cid =
      ⟨⟨st.results.processed + 1, st.results.created + 1, st.results.updated,
        st.results.skipped, st.results.errors⟩,
       st.store ++ [⟨cid, userId, v, hash (generate_embedding_content db cid),
         strTake (generate_embedding_content db cid) 500⟩],
       st.providerCalls + 1, st.storeCalls + 2⟩ := by
  rw [po_write hash embed storeFail db userId st cid v hc (by simp [hashHit, hf]) he hsf]
  have hany : st.store.any (fun r => decide (r.contact_id = cid)) = false := by
    rw [List.any_eq_false]
    intro r hr
    have := List.find?_eq_none.mp hf r hr
    simpa using this
  simp [upsertEmb, hany, hf]

/-- A provider failure for an entity with no stored row: the error entry is
appended and nothing else changes except the ghost counters. -/
theorem po_embed_err_fresh (hash : String → String)
    (embed : String → Except String (List ℚ)) (storeFail : Nat → Option String)
    (db : Database) (userId : Nat) (st : LoopState) (cid : Nat) (msg : String)
    (hc : generate_embedding_content db cid ≠ "")
    (hf : st.store.find? (fun r => decide (r.contact_id = cid)) = none)
    (he : embed (generate_embedding_content db cid) = Except.error msg) :
    processOne hash embed storeFail db userId st cid =
      ⟨⟨st.results.processed, st.results.created, st.results.updated,
        st.results.skipped, st.results.errors ++ [s!"{cid}: {msg}"]⟩,
       st.store, st.providerCalls + 1, st.storeCalls + 1⟩ := by
  rw [po_embed_err hash embed storeFail db userId st cid msg hc (by simp [hashHit, hf]) he]

/-- C1: a provider or store failure on one entity only appends that entity's
id and error message to the error list — counts and store are untouched, so
the fold continues with the next entity — and consequently a batch of five
fresh entities in which the provider fails exactly on the third yields
`processed = 4`, `created = 4`, one error entry for the third entity, and
upserted rows for the other four. -/
theorem C1_partial_failure_isolation (hash : String → String)
    (embed : String → Except String (List ℚ)) (db : Database) (userId : Nat)
    (a b c d e : Nat) (msg : String) (va vb vd ve : List ℚ)
    (hnd : [a, b, c, d, e].Nodup)
    (hga : generate_embedding_content db a ≠ "")
    (hgb : generate_embedding_content db b ≠ "")
    (hgc : generate_embedding_content db c ≠ "")
    (hgd : generate_embedding_content db d ≠ "")
    (hge : generate_embedding_content db e ≠ "")
    (hea : embed (generate_embedding_content db a) = Except.ok va)
    (heb : embed (generate_embedding_content db b) = Except.ok vb)
    (hec : embed (generate_embedding_content db c) = Except.error msg)
    (hed : embed (generate_embedding_content db d) = Except.ok vd)
    (hee : embed (generate_embedding_content db e) = Except.ok ve) :
    (∀ (hash2 : String → String) (embed2 : String → Except String (List ℚ))
       (storeFail2 : Nat → Option String) (db2 : Database) (userId2 : Nat)
       (st : LoopState) (cid : Nat) (msg2 : String),
       generate_embedding_content db2 cid ≠ "" →
       hashHit (st.store.find? (fun r => decide (r.contact_id = cid)))
         (hash2 (generate_embedding_content db2 cid)) = false →
       (embed2 (generate_embedding_content db2 cid) = Except.error msg2 ∨
         ((∃ v, embed2 (generate_embedding_content db2 cid) = Except.ok v) ∧
          storeFail2 cid = some msg2)) →
       ((processOne hash2 embed2 storeFail2 db2 userId2 st cid).results.errors =
          st.results.errors ++ [s!"{cid}: {msg2}"] ∧
        (processOne hash2 embed2 storeFail2 db2 userId2 st cid).results.processed =
          st.results.processed ∧
        (processOne hash2 embed2 storeFail2 db2 userId2 st cid).results.created =
          st.results.created ∧
        (processOne hash2 embed2 storeFail2 db2 userId2 st cid).results.updated =
          st.results.updated ∧
        (processOne hash2 embed2 storeFail2 db2 userId2 st cid).results.skipped =
          st.results.skipped ∧
        (processOne hash2 embed2 storeFail2 db2 userId2 st cid).store = st.store)) ∧
    ((runLoop hash embed (fun _ => none) db userId [a, b, c, d, e] []).results.processed = 4 ∧
     (runLoop hash embed (fun _ => none) db userId [a, b, c, d, e] []).results.created = 4 ∧
     (runLoop hash embed (fun _ => none) db userId [a, b, c, d, e] []).results.updated = 0 ∧
     (runLoop hash embed (fun _ => none) db userId [a, b, c, d, e] []).results.skipped = 0 ∧
     (runLoop hash embed (fun _ => none) db userId [a, b, c, d, e] []).results.errors =
       [s!"{c}: {msg}"] ∧
     (runLoop hash embed (fun _ => none) db userId [a, b, c, d, e] []).store.map
       (fun row => row.contact_id) = [a, b, d, e]) := by
  constructor
  · intro hash2 embed2 storeFail2 db2 userId2 st cid msg2 hc hh hfail
    rcases hfail with he2 | ⟨⟨v, hv⟩, hsf⟩
    · rw [po_embed_err hash2 embed2 storeFail2 db2 userId2 st cid msg2 hc hh he2]
      exact ⟨rfl, rfl, rfl, rfl, rfl, rfl⟩
    · rw [po_store_err hash2 embed2 storeFail2 db2 userId2 st cid v msg2 hc hh hv hsf]
      exact ⟨rfl, rfl, rfl, rfl, rfl, rfl⟩
  · simp only [List.nodup_cons, List.mem_cons, List.mem_singleton,
      List.not_mem_nil, or_false, not_or, List.nodup_nil, and_true] at hnd
    obtain ⟨⟨hab, hac, had, hae⟩, ⟨hbc, hbd, hbe⟩, ⟨hcd, hce⟩, hde⟩ := hnd
    have s1 : processOne hash embed (fun _ => none) db userId (initialState []) a =
        ⟨⟨1, 1, 0, 0, []⟩,
         [⟨a, userId, va, hash (generate_embedding_content db a),
           strTake (generate_embedding_content db a) 500⟩], 1, 2⟩ :=
      po_write_fresh hash embed (fun _ => none) db userId (initialState [])
        a va hga rfl hea rfl
    have s2 : processOne hash embed (fun _ => none) db userId
        ⟨⟨1, 1, 0, 0, []⟩,
         [⟨a, userId, va, hash (generate_embedding_content db a),
           strTake (generate_embedding_content db a) 500⟩], 1, 2⟩ b =
        ⟨⟨2, 2, 0, 0, []⟩,
         [⟨a, userId, va, hash (generate_embedding_content db a),
           strTake (generate_embedding_content db a) 500⟩,
          ⟨b, userId, vb, hash (generate_embedding_content db b),
           strTake (generate_embedding_content db b) 500⟩], 2, 4⟩ :=
      po_write_fresh hash embed (fun _ => none) db userId _ b vb hgb
        (by simp [List.find?_cons, hab]) heb rfl
    have s3 : processOne hash embed (fun _ => none) db userId
        ⟨⟨2, 2, 0, 0, []⟩,
         [⟨a, userId, va, hash (generate_embedding_content db a),
           strTake (generate_embedding_content db a) 500⟩,
          ⟨b, userId, vb, hash (generate_embedding_content db b),
           strTake (generate_embedding_content db b) 500⟩], 2, 4⟩ c =
        ⟨⟨2, 2, 0, 0, [s!"{c}: {msg}"]⟩,
         [⟨a, userId, va, hash (generate_embedding_content db a),
           strTake (generate_embedding_content db a) 500⟩,
          ⟨b, userId, vb, hash (generate_embedding_content db b),
           strTake (generate_embedding_content db b) 500⟩], 3, 5⟩ :=
      po_embed_err_fresh hash embed (fun _ => none) db userId _ c msg hgc
        (by simp [List.find?_cons, hac, hbc]) hec
    have s4 : processOne hash embed (fun _ => none) db userId
        ⟨⟨2, 2, 0, 0, [s!"{c}: {msg}"]⟩,
         [⟨a, userId, va, hash (generate_embedding_content db a),
           strTake (generate_embedding_content db a) 500⟩,
          ⟨b, userId, vb, hash (generate_embedding_content db b),
           strTake (generate_embedding_content db b) 500⟩], 3, 5⟩ d =
        ⟨⟨3, 3, 0, 0, [s!"{c}: {msg}"]⟩,
         [⟨a, userId, va, hash (generate_embedding_content db a),
           strTake (generate_embedding_content db a) 500⟩,
          ⟨b, userId, vb, hash (generate_embedding_content db b),
           strTake (generate_embedding_content db b) 500⟩,
          ⟨d, userId, vd, hash (generate_embedding_content db d),
           strTake (generate_embedding_content db d) 500⟩], 4, 7⟩ :=
      po_write_fresh hash embed (fun _ => none) db userId _ d vd hgd
        (by simp [List.find?_cons, had, hbd]) hed rfl
    have s5 : processOne hash embed (fun _ => none) db userId
        ⟨⟨3, 3, 0, 0, [s!"{c}: {msg}"]⟩,
         [⟨a, userId, va, hash (generate_embedding_content db a),
           strTake (generate_embedding_content db a) 500⟩,
          ⟨b, userId, vb, hash (generate_embedding_content db b),
           strTake (generate_embedding_content db b) 500⟩,
          ⟨d, userId, vd, hash (generate_embedding_content db d),
           strTake (generate_embedding_content db d) 500⟩], 4, 7⟩ e =
        ⟨⟨4, 4, 0, 0, [s!"{c}: {msg}"]⟩,
         [⟨a, userId, va, hash (generate_embedding_content db a),
           strTake (generate_embedding_content db a) 500⟩,
          ⟨b, userId, vb, hash (generate_embedding_content db b),
           strTake (generate_embedding_content db b) 500⟩,
          ⟨d, userId, vd, hash (generate_embedding_content db d),
           strTake (generate_embedding_content db d) 500⟩,
          ⟨e, userId, ve, hash (generate_embedding_content db e),
           strTake (generate_embedding_content db e) 500⟩], 5, 9⟩ :=
      po_write_fresh hash embed (fun _ => none) db userId _ e ve hge
        (by simp [List.find?_cons, hae, hbe, hde]) hee rfl
    have hrun : runLoop hash embed (fun _ => none) db userId [a, b, c, d, e] [] =
        ⟨⟨4, 4, 0, 0, [s!"{c}: {msg}"]⟩,
         [⟨a, userId, va, hash (generate_embedding_content db a),
           strTake (generate_embedding_content db a) 500⟩,
          ⟨b, userId, vb, hash (generate_embedding_content db b),
           strTake (generate_embedding_content db b) 500⟩,
          ⟨d, userId, vd, hash (generate_embedding_content db d),
           strTake (generate_embedding_content db d) 500⟩,
          ⟨e, userId, ve, hash (generate_embedding_content db e),
           strTake (generate_embedding_content db e) 500⟩], 5, 9⟩ := by
      simp only [runLoop, List.foldl_cons, List.foldl_nil]
      rw [s1, s2, s3, s4, s5]
    rw [hrun]
    exact ⟨rfl, rfl, rfl, rfl, rfl, rfl⟩

/-- Witness for C1: the five contacts of `ex5Db` (contents "A"–"E") with the
provider `exEmbed`, which fails exactly on "C" — the content of contact 13. -/
theorem C1_witness :
    [11, 12, 13, 14, 15].Nodup ∧
    (runLoop (fun s => s) exEmbed (fun _ => none) ex5Db 7
      [11, 12, 13, 14, 15] []).results.processed = 4 ∧
    (runLoop (fun s => s) exEmbed (fun _ => none) ex5Db 7
      [11, 12, 13, 14, 15] []).results.created = 4 ∧
    (runLoop (fun s => s) exEmbed (fun _ => none) ex5Db 7
      [11, 12, 13, 14, 15] []).results.errors = ["13: boom"] ∧
    (runLoop (fun s => s) exEmbed (fun _ => none) ex5Db 7
      [11, 12, 13, 14, 15] []).store.map (fun row => row.contact_id) =
      [11, 12, 14, 15] := by
  have h := (C1_partial_failure_isolation (fun s => s) exEmbed ex5Db 7
    11 12 13 14 15 "boom" [1] [1] [1] [1] (by decide)
    (by decide) (by decide) (by decide) (by decide) (by decide)
    rfl rfl rfl rfl rfl).2
  exact ⟨by decide, h.1, h.2.1, h.2.2.2.2.1, h.2.2.2.2.2⟩


/-- Accounting over the fold: each iteration consumes exactly one id into
exactly one bucket, and keeps `processed` in step with `created + updated`. -/
theorem runLoop_accounting (hash : String → String)
    (embed : String → Except String (List ℚ)) (storeFail : Nat → Option String)
    (db : Database) (userId : Nat) (ids : List Nat) (st : LoopState) :
    ((ids.foldl (processOne hash embed storeFail db userId) st).results.processed +
      (ids.foldl (processOne hash embed storeFail db userId) st).results.skipped +
      (ids.foldl (processOne hash embed storeFail db userId) st).results.errors.length =
      st.results.processed + st.results.skipped + st.results.errors.length + ids.length) ∧
    ((ids.foldl (processOne hash embed storeFail db userId) st).results.created +
      (ids.foldl (processOne hash embed storeFail db userId) st).results.updated +
      st.results.processed =
      st.results.created + st.results.updated +
      (ids.foldl (processOne hash embed storeFail db userId) st).results.processed) := by
  induction ids generalizing st with
  | nil => simp
  | cons a as ih =>
    simp only [List.foldl_cons, List.length_cons]
    obtain ⟨h1, h2⟩ := ih (processOne hash embed storeFail db userId st a)
    rcases processOne_shape hash embed storeFail db userId st a with
      h | h | ⟨e, h⟩ | ⟨e, h⟩ | ⟨row, _, _, h | h⟩ <;>
      rw [h] at h1 h2 ⊢ <;> simp at h1 h2 ⊢ <;> omega

/-- C10: for every batch run, the returned outcome satisfies
`processed = created + updated`, and `processed + skipped + |errors|` equals
the number of entity ids iterated, so each entity lands in exactly one of the
three buckets. -/
theorem C10_outcome_accounting (hash : String → String)
    (embed : String → Except String (List ℚ)) (storeFail : Nat → Option String)
    (db : Database) (store0 : List EmbRow) (userId : Nat)
    (contactId? : Option Nat) (batchSize : Nat) :
    (runBatch hash embed storeFail db store0 userId contactId? batchSize).results.processed =
      (runBatch hash embed storeFail db store0 userId contactId? batchSize).results.created +
      (runBatch hash embed storeFail db store0 userId contactId? batchSize).results.updated ∧
    (runBatch hash embed storeFail db store0 userId contactId? batchSize).results.processed +
      (runBatch hash embed storeFail db store0 userId contactId? batchSize).results.skipped +
      (runBatch hash embed storeFail db store0 userId contactId? batchSize).results.errors.length =
      (selectContactIds db userId contactId? batchSize).length := by
  obtain ⟨h1, h2⟩ := runLoop_accounting hash embed storeFail db userId
    (selectContactIds db userId contactId? batchSize) (initialState store0)
  unfold runBatch runLoop
  simp [initialState, emptyResults] at h1 h2 ⊢
  omega

/-- C2: for non-empty composed text, the loop counts the entity as skipped
with no provider call exactly when a stored row for it carries the hash of the
newly composed text; empty composed text is counted as skipped with nothing
else touched (no provider call, no embedding-store call, no error). -/
theorem C2_change_detector (hash : String → String)
    (embed : String → Except String (List ℚ)) (storeFail : Nat → Option String)
    (db : Database) (userId : Nat) (st : LoopState) (cid : Nat) :
    (generate_embedding_content db cid ≠ "" →
      (((processOne hash embed storeFail db userId st cid).results.skipped =
          st.results.skipped + 1 ∧
        (processOne hash embed storeFail db userId st cid).providerCalls =
          st.providerCalls) ↔
        ∃ r, st.store.find? (fun r2 => decide (r2.contact_id = cid)) = some r ∧
          r.content_hash = hash (generate_embedding_content db cid))) ∧
    (generate_embedding_content db cid = "" →
      processOne hash embed storeFail db userId st cid =
        { st with results :=
            { st.results with skipped := st.results.skipped + 1 } }) := by
  constructor
  · intro hc
    cases hh : hashHit (st.store.find? (fun r => decide (r.contact_id = cid)))
        (hash (generate_embedding_content db cid)) with
    | true =>
      rw [po_skip hash embed storeFail db userId st cid hc hh]
      simp only [true_and]
      constructor
      · intro _
        exact (hashHit_iff _ _).mp hh
      · intro _; simp
    | false =>
      have hnr : ¬∃ r, st.store.find? (fun r2 => decide (r2.contact_id = cid)) = some r ∧
          r.content_hash = hash (generate_embedding_content db cid) := by
        rw [← hashHit_iff]; simp [hh]
      cases he : embed (generate_embedding_content db cid) with
      | error msg =>
        rw [po_embed_err hash embed storeFail db userId st cid msg hc hh he]
        simp only []
        constructor
        · rintro ⟨h1, _⟩; omega
        · intro h; exact absurd h hnr
      | ok v =>
        cases hsf : storeFail cid with
        | some msg =>
          rw [po_store_err hash embed storeFail db userId st cid v msg hc hh he hsf]
          constructor
          · rintro ⟨_, h2⟩; simp at h2
          · intro h; exact absurd h hnr
        | none =>
          rw [po_write hash embed storeFail db userId st cid v hc hh he hsf]
          constructor
          · rintro ⟨_, h2⟩; simp at h2
          · intro h; exact absurd h hnr
  · exact po_empty hash embed storeFail db userId st cid

/-- Witness for C2 on concrete data: contact 1 of `exDb` composes non-empty
text and no stored row matches, so it is not skipped; contact 99 does not
exist, composes empty text, and is counted as skipped untouched. -/
theorem C2_witness :
    ((¬((processOne (fun s => s) (fun _ => Except.ok [1]) (fun _ => none) exDb 7
          (initialState []) 1).results.skipped = 0 + 1 ∧
        (processOne (fun s => s) (fun _ => Except.ok [1]) (fun _ => none) exDb 7
          (initialState []) 1).providerCalls = 0)) ∧
      (processOne (fun s => s) (fun _ => Except.ok [1]) (fun _ => none) exDb 7
          (initialState []) 99 =
        { initialState [] with results :=
            { (initialState []).results with skipped := 0 + 1 } })) := by
  constructor
  · have h := (C2_change_detector (fun s => s) (fun _ => Except.ok [1])
      (fun _ => none) exDb 7 (initialState []) 1).1 (by decide)
    intro hcontra
    have := h.mp (by simpa [initialState, emptyResults] using hcontra)
    revert this
    decide
  · have h := (C2_change_detector (fun s => s) (fun _ => Except.ok [1])
      (fun _ => none) exDb 7 (initialState []) 99).2 (by decide)
    simpa [initialState, emptyResults] using h

/-- C9: a search request whose `query` is missing, not a string, or the empty
string gets the validation error (never a success response) and triggers no
provider call. -/
theorem C9_empty_query_rejected (embed : String → Except String (List ℚ))
    (db : Database) (store : List EmbRow) (dist : List ℚ → List ℚ → ℚ)
    (userId : Nat) (lim : Nat) (thr : ℚ) (q : Option JVal)
    (hq : (∀ s, q ≠ some (JVal.jstr s)) ∨ q = some (JVal.jstr "")) :
    semanticSearch embed db store dist userId ⟨q, lim, thr⟩ =
      (SearchResponse.validationError "Query is required", 0) ∧
    ∀ res n, (semanticSearch embed db store dist userId ⟨q, lim, thr⟩).1 ≠
      SearchResponse.success res n := by
  have h1 : semanticSearch embed db store dist userId ⟨q, lim, thr⟩ =
      (SearchResponse.validationError "Query is required", 0) := by
    rcases hq with hq | hq
    · match q with
      | none => rfl
      | some (JVal.jstr s) => exact absurd rfl (hq s)
      | some (JVal.jnum n) => rfl
      | some (JVal.jbool b) => rfl
      | some JVal.jnull => rfl
    · subst hq; rfl
  refine ⟨h1, ?_⟩
  rw [h1]
  intro res n
  simp

/-! ### Sorting lemmas for `sortBy` -/

theorem mem_insertSorted (le : α → α → Bool) (a b : α) (l : List α) :
    b ∈ insertSorted le a l ↔ b = a ∨ b ∈ l := by
  induction l with
  | nil => simp [insertSorted]
  | cons c l ih =>
    simp only [insertSorted]
    split
    · simp
    · simp [ih, or_left_comm]

theorem mem_sortBy (le : α → α → Bool) (b : α) (l : List α) :
    b ∈ sortBy le l ↔ b ∈ l := by
  induction l with
  | nil => simp [sortBy]
  | cons a l ih => simp [sortBy, mem_insertSorted, ih]

theorem pairwise_insertSorted (le : α → α → Bool)
    (htot : ∀ a b, le a b = true ∨ le b a = true)
    (htr : ∀ a b c, le a b = true → le b c = true → le a c = true)
    (a : α) (l : List α) (h : l.Pairwise (fun x y => le x y = true)) :
    (insertSorted le a l).Pairwise (fun x y => le x y = true) := by
  induction l with
  | nil => simp [insertSorted]
  | cons b l ih =>
    rw [List.pairwise_cons] at h
    obtain ⟨hb, hl⟩ := h
    simp only [insertSorted]
    split
    · rename_i hab
      rw [List.pairwise_cons]
      refine ⟨?_, List.pairwise_cons.mpr ⟨hb, hl⟩⟩
      intro x hx
      rcases List.mem_cons.mp hx with rfl | hx
      · exact hab
      · exact htr a b x hab (hb x hx)
    · rename_i hab
      rw [List.pairwise_cons]
      constructor
      · intro x hx
        rcases (mem_insertSorted le a x l).mp hx with rfl | hx
        · rcases htot x b with h1 | h1
          · exact absurd h1 hab
          · exact h1
        · exact hb x hx
      · exact ih hl

theorem pairwise_sortBy (le : α → α → Bool)
    (htot : ∀ a b, le a b = true ∨ le b a = true)
    (htr : ∀ a b c, le a b = true → le b c = true → le a c = true)
    (l : List α) :
    (sortBy le l).Pairwise (fun x y => le x y = true) := by
  induction l with
  | nil => simp [sortBy]
  | cons a l ih => exact pairwise_insertSorted le htot htr a _ ih

/-- C4: every match returned by `find_similar_contacts` clears the similarity
threshold, at most `p_limit` matches come back, and the list is ordered
descending by similarity. -/
theorem C4_threshold_order_limit (db : Database) (store : List EmbRow)
    (dist : List ℚ → List ℚ → ℚ) (uid : Nat) (q : List ℚ) (L : Nat) (t : ℚ) :
    (∀ m ∈ find_similar_contacts db store dist uid q L t, t ≤ m.similarity) ∧
    (find_similar_contacts db store dist uid q L t).length ≤ L ∧
    (find_similar_contacts db store dist uid q L t).Pairwise
      (fun m1 m2 => m2.similarity ≤ m1.similarity) := by
  simp only [find_similar_contacts]
  refine ⟨?_, ?_, ?_⟩
  · intro m hm
    obtain ⟨p, hp, rfl⟩ := List.mem_map.mp hm
    have hp2 := (mem_sortBy _ p _).mp (List.mem_of_mem_take hp)
    have := (List.mem_filter.mp hp2).2
    simp only [decide_eq_true_eq] at this
    exact this.2.2
  · rw [List.length_map, List.length_take]
    exact min_le_left _ _
  · rw [List.pairwise_map]
    have hs := pairwise_sortBy
      (fun p1 p2 : EmbRow × Contact =>
        decide (dist p1.1.embedding q ≤ dist p2.1.embedding q))
      (fun a b => by
        simp only [decide_eq_true_eq]
        exact le_total _ _)
      (fun a b c hab hbc => by
        simp only [decide_eq_true_eq] at hab hbc ⊢
        exact le_trans hab hbc)
      (List.filter
        (fun p => decide (p.1.user_id = uid ∧ p.2.deletedAt = none ∧
          t ≤ 1 - dist p.1.embedding q))
        (store.filterMap (fun ce =>
          (db.contacts.find? (fun c => decide (c.id = ce.contact_id))).map
            (fun c => (ce, c)))))
    have hs2 := hs.sublist (List.take_sublist L _)
    refine hs2.imp ?_
    intro p1 p2 h
    simp only [decide_eq_true_eq] at h
    exact sub_le_sub_left h 1

/-- C5: every match returned by `find_similar_contacts` stems from an
embedding row of the calling user joined to its own non-deleted contact, so a
record of another scope is never returned. -/
theorem C5_scope_isolation (db : Database) (store : List EmbRow)
    (dist : List ℚ → List ℚ → ℚ) (uid : Nat) (q : List ℚ) (L : Nat) (t : ℚ)
    (m : SimilarMatch)
    (hm : m ∈ find_similar_contacts db store dist uid q L t) :
    ∃ ce ∈ store, ∃ c ∈ db.contacts,
      ce.contact_id = c.id ∧ m.contact_id = c.id ∧ ce.user_id = uid ∧
      c.deletedAt = none := by
  simp only [find_similar_contacts] at hm
  obtain ⟨p, hp, rfl⟩ := List.mem_map.mp hm
  have hp2 := (mem_sortBy _ p _).mp (List.mem_of_mem_take hp)
  obtain ⟨hpj, hpc⟩ := List.mem_filter.mp hp2
  simp only [decide_eq_true_eq] at hpc
  obtain ⟨ce, hce, hmap⟩ := List.mem_filterMap.mp hpj
  obtain ⟨c, hfind, rfl⟩ := Option.map_eq_some'.mp hmap
  have hcmem := List.mem_of_find?_eq_some hfind
  have hcid := List.find?_some hfind
  simp only [decide_eq_true_eq] at hcid
  exact ⟨ce, hce, c, hcmem, hcid.symm, rfl, hpc.1, hpc.2.1⟩

/-- Witness for C5 on concrete data: the one match returned for user 7. -/
theorem C5_witness :
    ∃ ce ∈ exStore, ∃ c ∈ exDb.contacts,
      ce.contact_id = c.id ∧
      (⟨1, 1 - 0, some "Ann", some "Lee", none, some "Engineer"⟩ :
        SimilarMatch).contact_id = c.id ∧
      ce.user_id = 7 ∧ c.deletedAt = none :=
  C5_scope_isolation exDb exStore (fun _ _ => 0) 7 [1] 10 (7/10) _
    (by norm_num [find_similar_contacts, exDb, exStore, sortBy, insertSorted,
      List.find?, List.filterMap, List.filter])

/-! ### Upsert lemmas and the uniqueness invariant -/

theorem upsertEmb_map_key (store : List EmbRow) (row : EmbRow) :
    (upsertEmb store row).map (fun r => r.contact_id) =
      if store.any (fun r => decide (r.contact_id = row.contact_id)) then
        store.map (fun r => r.contact_id)
      else store.map (fun r => r.contact_id) ++ [row.contact_id] := by
  unfold upsertEmb
  split
  · rw [List.map_map]
    apply List.map_congr_left
    intro r _
    simp only [Function.comp_apply]
    split
    · rename_i h2; exact h2.symm
    · rfl
  · simp

theorem keysNodup_upsertEmb (store : List EmbRow) (row : EmbRow)
    (h : keysNodup store) : keysNodup (upsertEmb store row) := by
  unfold keysNodup at h ⊢
  rw [upsertEmb_map_key]
  split
  · exact h
  · rename_i hany
    rw [List.nodup_append]
    refine ⟨h, List.nodup_singleton _, ?_⟩
    intro x hx hx1
    simp only [List.mem_singleton] at hx1
    subst hx1
    obtain ⟨r, hr, hrk⟩ := List.mem_map.mp hx
    simp only [List.any_eq_true, decide_eq_true_eq] at hany
    exact hany ⟨r, hr, hrk⟩

theorem filter_map_replace (store : List EmbRow) (row : EmbRow)
    (h : keysNodup store)
    (hany : store.any (fun r => decide (r.contact_id = row.contact_id)) = true) :
    (store.map (fun r => if r.contact_id = row.contact_id then row else r)).filter
      (fun r => decide (r.contact_id = row.contact_id)) = [row] := by
  induction store with
  | nil => simp at hany
  | cons x xs ih =>
    simp only [keysNodup, List.map_cons, List.nodup_cons] at h
    by_cases hx : x.contact_id = row.contact_id
    · have hxs : ∀ r ∈ xs, ¬r.contact_id = row.contact_id := by
        intro r hr hrk
        apply h.1
        rw [hx, ← hrk]
        exact List.mem_map.mpr ⟨r, hr, rfl⟩
      have hmapxs : xs.map
          (fun r => if r.contact_id = row.contact_id then row else r) = xs := by
        conv_rhs => rw [← List.map_id xs]
        apply List.map_congr_left
        intro r hr
        rw [if_neg (hxs r hr)]
        rfl
      rw [List.map_cons, if_pos hx, hmapxs, List.filter_cons]
      rw [if_pos (by simp)]
      have htail : xs.filter (fun r => decide (r.contact_id = row.contact_id)) = [] := by
        rw [List.filter_eq_nil_iff]
        intro r hr
        simp only [decide_eq_true_eq]
        exact hxs r hr
      rw [htail]
    · have hany2 : xs.any (fun r => decide (r.contact_id = row.contact_id)) = true := by
        simp only [List.any_cons, Bool.or_eq_true, decide_eq_true_eq] at hany
        rcases hany with hany | hany
        · exact absurd hany hx
        · exact hany
      have h2 : keysNodup xs := h.2
      rw [List.map_cons, if_neg hx, List.filter_cons]
      rw [if_neg (by simp [hx])]
      exact ih h2 hany2

theorem upsertEmb_filter_self (store : List EmbRow) (row : EmbRow)
    (h : keysNodup store) :
    (upsertEmb store row).filter (fun r => decide (r.contact_id = row.contact_id)) =
      [row] := by
  unfold upsertEmb
  split
  · rename_i hany; exact filter_map_replace store row h hany
  · rename_i hany
    rw [List.filter_append]
    have h1 : store.filter (fun r => decide (r.contact_id = row.contact_id)) = [] := by
      rw [List.filter_eq_nil_iff]
      intro a ha hc
      exact hany (List.any_eq_true.mpr ⟨a, ha, hc⟩)
    rw [h1]
    simp

theorem foldl_upsert_filter (store0 : List EmbRow) (w : EmbRow)
    (ws : List EmbRow) (cid : Nat) (h0 : keysNodup store0)
    (hw : w.contact_id = cid) (hws : ∀ x ∈ ws, x.contact_id = cid) :
    ((w :: ws).foldl upsertEmb store0).filter
        (fun r => decide (r.contact_id = cid)) =
      [(w :: ws).getLast (List.cons_ne_nil w ws)] ∧
    keysNodup ((w :: ws).foldl upsertEmb store0) := by
  induction ws generalizing store0 w with
  | nil =>
    simp only [List.foldl_cons, List.foldl_nil, List.getLast_singleton]
    refine ⟨?_, keysNodup_upsertEmb store0 w h0⟩
    rw [← hw]
    exact upsertEmb_filter_self store0 w h0
  | cons w2 ws2 ih =>
    have step := ih (upsertEmb store0 w) w2 (keysNodup_upsertEmb store0 w h0)
      (hws w2 (List.mem_cons_self w2 ws2))
      (fun x hx => hws x (List.mem_cons_of_mem w2 hx))
    simp only [List.foldl_cons] at step ⊢
    rw [List.getLast_cons (List.cons_ne_nil w2 ws2)]
    exact step

/-- C6: starting from a store satisfying the unique-key constraint, any
non-empty sequence of upserts against one entity id leaves exactly one row
for that id, holding the values of the last upsert, and preserves the
constraint. -/
theorem C6_uniqueness (store0 : List EmbRow) (writes : List EmbRow) (cid : Nat)
    (h0 : keysNodup store0) (hw : ∀ w ∈ writes, w.contact_id = cid)
    (hne : writes ≠ []) :
    (writes.foldl upsertEmb store0).filter (fun r => decide (r.contact_id = cid)) =
      [writes.getLast hne] ∧
    keysNodup (writes.foldl upsertEmb store0) := by
  match writes, hne with
  | w :: ws, _ =>
    exact foldl_upsert_filter store0 w ws cid h0
      (hw w (List.mem_cons_self w ws))
      (fun x hx => hw x (List.mem_cons_of_mem w hx))

/-- Witness for C6: two successive upserts for entity 1 leave exactly the
second row. -/
theorem C6_witness :
    ([(⟨1, 7, [1], "h1", "s1"⟩ : EmbRow), ⟨1, 7, [2], "h2", "s2"⟩].foldl
        upsertEmb []).filter (fun r => decide (r.contact_id = 1)) =
      [(⟨1, 7, [2], "h2", "s2"⟩ : EmbRow)] ∧
    keysNodup ([(⟨1, 7, [1], "h1", "s1"⟩ : EmbRow), ⟨1, 7, [2], "h2", "s2"⟩].foldl
        upsertEmb []) := by
  have h := C6_uniqueness [] [⟨1, 7, [1], "h1", "s1"⟩, ⟨1, 7, [2], "h2", "s2"⟩] 1
    (by simp [keysNodup]) (by decide) (by decide)
  simpa using h

/-! ### Store evolution of the batch loop -/

theorem mem_upsertEmb (store : List EmbRow) (row r : EmbRow)
    (h : r ∈ upsertEmb store row) : r ∈ store ∨ r = row := by
  unfold upsertEmb at h
  split at h
  · obtain ⟨x, hx, hfx⟩ := List.mem_map.mp h
    by_cases hc : x.contact_id = row.contact_id
    · right; rw [← hfx, if_pos hc]
    · left; rw [← hfx, if_neg hc]; exact hx
  · rcases List.mem_append.mp h with h | h
    · left; exact h
    · right; simpa using h

/-- Each iteration either leaves the store unchanged or upserts one row
keyed by the current contact id and stamped with the caller's user id. -/
theorem processOne_store_cases (hash : String → String)
    (embed : String → Except String (List ℚ)) (storeFail : Nat → Option String)
    (db : Database) (userId : Nat) (st : LoopState) (cid : Nat) :
    (processOne hash embed storeFail db userId st cid).store = st.store ∨
    ∃ row : EmbRow, row.contact_id = cid ∧ row.user_id = userId ∧
      (processOne hash embed storeFail db userId st cid).store =
        upsertEmb st.store row := by
  rcases processOne_shape hash embed storeFail db userId st cid with
    h | h | ⟨e, h⟩ | ⟨e, h⟩ | ⟨row, h1, h2, h | h⟩
  · left; rw [h]
  · left; rw [h]
  · left; rw [h]
  · left; rw [h]
  · right; exact ⟨row, h1, h2, by rw [h]⟩
  · right; exact ⟨row, h1, h2, by rw [h]⟩

theorem runLoop_store_inv (hash : String → String)
    (embed : String → Except String (List ℚ)) (storeFail : Nat → Option String)
    (db : Database) (userId : Nat) (ids : List Nat) (st : LoopState)
    (hids : ∀ cid ∈ ids, ∃ c ∈ db.contacts,
      c.id = cid ∧ c.userId = userId ∧ c.deletedAt = none)
    (hst : ∀ r ∈ st.store, r.user_id = userId ∧ ∃ c ∈ db.contacts,
      c.id = r.contact_id ∧ c.userId = userId ∧ c.deletedAt = none) :
    ∀ r ∈ (ids.foldl (processOne hash embed storeFail db userId) st).store,
      r.user_id = userId ∧ ∃ c ∈ db.contacts,
        c.id = r.contact_id ∧ c.userId = userId ∧ c.deletedAt = none := by
  induction ids generalizing st with
  | nil => simpa using hst
  | cons a as ih =>
    simp only [List.foldl_cons]
    apply ih _ (fun cid hc => hids cid (List.mem_cons_of_mem a hc))
    rcases processOne_store_cases hash embed storeFail db userId st a with
      h | ⟨row, hrc, hru, h⟩
    · rw [h]; exact hst
    · rw [h]
      intro r hr
      rcases mem_upsertEmb st.store row r hr with hr2 | rfl
      · exact hst r hr2
      · refine ⟨hru, ?_⟩
        rw [hrc]
        exact hids a (List.mem_cons_self a as)

/-- C7 (amended): in batch-selection mode every record written carries the
caller's scope id, and its owning contact is a caller-owned non-deleted
contact — guaranteed by the selection filter, not by a write-time check. -/
theorem C7_batch_scope (hash : String → String)
    (embed : String → Except String (List ℚ)) (storeFail : Nat → Option String)
    (db : Database) (userId : Nat) (batchSize : Nat) (row : EmbRow)
    (hrow : row ∈ (runBatch hash embed storeFail db [] userId none
      batchSize).store) :
    row.user_id = userId ∧ ∃ c ∈ db.contacts,
      c.id = row.contact_id ∧ c.userId = userId ∧ c.deletedAt = none := by
  have hsel : ∀ cid ∈ selectContactIds db userId none batchSize,
      ∃ c ∈ db.contacts, c.id = cid ∧ c.userId = userId ∧ c.deletedAt = none := by
    intro cid hc
    simp only [selectContactIds] at hc
    obtain ⟨c, hc1, rfl⟩ := List.mem_map.mp hc
    have hc2 := List.mem_of_mem_take hc1
    have hc3 := List.mem_filter.mp hc2
    simp only [decide_eq_true_eq] at hc3
    exact ⟨c, hc3.1, rfl, hc3.2.1, hc3.2.2⟩
  exact runLoop_store_inv hash embed storeFail db userId _ (initialState [])
    hsel (fun r hr => by simp [initialState] at hr) row hrow

/-- C7 counterexample: in single-contact mode, user 7 re-embeds contact 3 —
owned by user 8 — and the stored record carries scope 7, differing from the
owning entity's scope 8; no write-time check prevents it. -/
theorem C7_counterexample :
    ((runBatch (fun s => s) (fun _ => Except.ok [1]) (fun _ => none) exDb [] 7
        (some 3) 50).store.map (fun r => (r.contact_id, r.user_id)) = [(3, 7)]) ∧
    exDb.contacts.map (fun c => (c.id, c.userId)) = [(1, 7), (2, 7), (3, 8)] := by
  decide

/-- Witness for C7 (amended): the record the batch run of user 8 writes for
contact 3 of `exDb`. -/
theorem C7_witness :
    (⟨3, 8, [1], "Cat", "Cat"⟩ : EmbRow).user_id = 8 ∧ ∃ c ∈ exDb.contacts,
      c.id = (⟨3, 8, [1], "Cat", "Cat"⟩ : EmbRow).contact_id ∧ c.userId = 8 ∧
      c.deletedAt = none :=
  C7_batch_scope (fun s => s) (fun _ => Except.ok [1]) (fun _ => none) exDb 8 50
    ⟨3, 8, [1], "Cat", "Cat"⟩ (by decide)

/-- C8 (amended): composition returns empty for a nonexistent entity (given
referential integrity for its notes and tags), and the loop then counts the
entity as skipped without touching provider or store; no soft-deletion or
ownership check is performed by composition itself. -/
theorem C8_nonexistent_empty (db : Database) (cid : Nat)
    (hc : ∀ c ∈ db.contacts, c.id ≠ cid)
    (hn : ∀ n ∈ db.notes, n.contactId ≠ cid)
    (ht : ∀ t ∈ db.tags, t.contactId ≠ cid) :
    generate_embedding_content db cid = "" ∧
    ∀ (hash : String → String) (embed : String → Except String (List ℚ))
      (storeFail : Nat → Option String) (userId : Nat) (st : LoopState),
      processOne hash embed storeFail db userId st cid =
        { st with results :=
            { st.results with skipped := st.results.skipped + 1 } } := by
  have hcc : db.contacts.find? (fun c => decide (c.id = cid)) = none := by
    rw [List.find?_eq_none]
    intro c hcmem
    simp only [decide_eq_true_eq]
    exact hc c hcmem
  have hnn : db.notes.filter (fun n => decide (n.contactId = cid)) = [] := by
    rw [List.filter_eq_nil_iff]
    intro n hnmem
    simp only [decide_eq_true_eq]
    exact hn n hnmem
  have htt : db.tags.filter (fun t => decide (t.contactId = cid)) = [] := by
    rw [List.filter_eq_nil_iff]
    intro t htmem
    simp only [decide_eq_true_eq]
    exact ht t htmem
  have hmain : generate_embedding_content db cid = "" := by
    simp only [generate_embedding_content, hcc, hnn, htt, sortBy, concatWs]
    rfl
  exact ⟨hmain, fun hash embed storeFail userId st =>
    po_empty hash embed storeFail db userId st cid hmain⟩

/-- C8 counterexample: contact 2 of `exDb` is soft-deleted, yet composition
returns its non-empty text (it checks neither deletion nor ownership). -/
theorem C8_counterexample :
    generate_embedding_content exDb 2 = "Bob" ∧
    exDb.contacts.map (fun c => (c.id, c.deletedAt)) =
      [(1, none), (2, some 3), (3, none)] := by
  decide

/-- Witness for C8 (amended): contact 99 does not exist in `exDb`. -/
theorem C8_witness :
    generate_embedding_content exDb 99 = "" ∧
    processOne (fun s => s) (fun _ => Except.ok [1]) (fun _ => none) exDb 7
        (initialState []) 99 =
      { initialState [] with results :=
          { (initialState []).results with
            skipped := (initialState []).results.skipped + 1 } } := by
  have h := C8_nonexistent_empty exDb 99 (by decide) (by decide) (by decide)
  exact ⟨h.1, h.2 (fun s => s) (fun _ => Except.ok [1]) (fun _ => none) 7
    (initialState [])⟩

/-- Witness for C9: the missing-query case on concrete data. -/
theorem C9_witness :
    semanticSearch (fun _ => Except.ok [1]) exDb [] (fun _ _ => 0) 7 ⟨none, 10, 7/10⟩ =
      (SearchResponse.validationError "Query is required", 0) :=
  (C9_empty_query_rejected (fun _ => Except.ok [1]) exDb [] (fun _ _ => 0) 7 10 (7/10)
    none (Or.inl (fun _ h => Option.noConfusion h))).1

/-! ### Idempotence of the batch run -/

theorem find?_map_replace_self (store : List EmbRow) (row : EmbRow)
    (hany : store.any (fun r => decide (r.contact_id = row.contact_id)) = true) :
    (store.map (fun r => if r.contact_id = row.contact_id then row else r)).find?
      (fun r => decide (r.contact_id = row.contact_id)) = some row := by
  induction store with
  | nil => simp at hany
  | cons x xs ih =>
    by_cases hx : x.contact_id = row.contact_id
    · rw [List.map_cons, if_pos hx, List.find?_cons_of_pos]
      simp
    · have hany2 : xs.any (fun r => decide (r.contact_id = row.contact_id)) = true := by
        simp only [List.any_cons, Bool.or_eq_true, decide_eq_true_eq] at hany
        rcases hany with hany | hany
        · exact absurd hany hx
        · exact hany
      rw [List.map_cons, if_neg hx, List.find?_cons_of_neg]
      · exact ih hany2
      · simp [hx]

theorem find?_append_self (store : List EmbRow) (row : EmbRow)
    (hnone : store.find? (fun r => decide (r.contact_id = row.contact_id)) = none) :
    (store ++ [row]).find? (fun r => decide (r.contact_id = row.contact_id)) =
      some row := by
  induction store with
  | nil => simp [List.find?_cons]
  | cons x xs ih =>
    by_cases hp : x.contact_id = row.contact_id
    · simp [List.find?_cons, hp] at hnone
    · simp only [List.find?_cons, hp, decide_False] at hnone
      simp only [List.cons_append, List.find?_cons, hp, decide_False]
      exact ih hnone

theorem find?_upsertEmb_self (store : List EmbRow) (row : EmbRow) :
    (upsertEmb store row).find? (fun r => decide (r.contact_id = row.contact_id)) =
      some row := by
  unfold upsertEmb
  split
  · rename_i hany; exact find?_map_replace_self store row hany
  · rename_i hany
    apply find?_append_self
    rw [List.find?_eq_none]
    intro x hx hpx
    exact hany (List.any_eq_true.mpr ⟨x, hx, hpx⟩)

theorem find?_map_replace_ne (store : List EmbRow) (row : EmbRow) (cid : Nat)
    (hne : cid ≠ row.contact_id) :
    (store.map (fun r => if r.contact_id = row.contact_id then row else r)).find?
      (fun r => decide (r.contact_id = cid)) =
      store.find? (fun r => decide (r.contact_id = cid)) := by
  have hrow : ¬(row.contact_id = cid) := fun h => hne h.symm
  induction store with
  | nil => rfl
  | cons x xs ih =>
    by_cases hx : x.contact_id = row.contact_id
    · have hxc : ¬(x.contact_id = cid) := fun h => hne (h ▸ hx)
      simp only [List.map_cons, if_pos hx, List.find?_cons, hrow, hxc, decide_False]
      exact ih
    · simp only [List.map_cons, if_neg hx, List.find?_cons]
      by_cases hp : x.contact_id = cid
      · simp [hp]
      · simp only [hp, decide_False]
        exact ih

theorem find?_append_single_ne (store : List EmbRow) (row : EmbRow) (cid : Nat)
    (hne : cid ≠ row.contact_id) :
    (store ++ [row]).find? (fun r => decide (r.contact_id = cid)) =
      store.find? (fun r => decide (r.contact_id = cid)) := by
  have hrow : ¬(row.contact_id = cid) := fun h => hne h.symm
  induction store with
  | nil => simp [List.find?_cons, hrow]
  | cons x xs ih =>
    by_cases hp : x.contact_id = cid
    · simp [List.cons_append, List.find?_cons, hp]
    · simp only [List.cons_append, List.find?_cons, hp, decide_False]
      exact ih

theorem find?_upsertEmb_ne (store : List EmbRow) (row : EmbRow) (cid : Nat)
    (hne : cid ≠ row.contact_id) :
    (upsertEmb store row).find? (fun r => decide (r.contact_id = cid)) =
      store.find? (fun r => decide (r.contact_id = cid)) := by
  unfold upsertEmb
  split
  · exact find?_map_replace_ne store row cid hne
  · exact find?_append_single_ne store row cid hne

/-- A skip-ready entity is counted as skipped and changes nothing else. -/
theorem po_skipReady (hash : String → String)
    (embed : String → Except String (List ℚ)) (storeFail : Nat → Option String)
    (db : Database) (userId : Nat) (st : LoopState) (cid : Nat)
    (h : skipReady hash db st.store cid) :
    (processOne hash embed storeFail db userId st cid).results.created =
      st.results.created ∧
    (processOne hash embed storeFail db userId st cid).results.updated =
      st.results.updated ∧
    (processOne hash embed storeFail db userId st cid).results.processed =
      st.results.processed ∧
    (processOne hash embed storeFail db userId st cid).results.errors =
      st.results.errors ∧
    (processOne hash embed storeFail db userId st cid).results.skipped =
      st.results.skipped + 1 ∧
    (processOne hash embed storeFail db userId st cid).store = st.store := by
  by_cases hc : generate_embedding_content db cid = ""
  · rw [po_empty hash embed storeFail db userId st cid hc]
    exact ⟨rfl, rfl, rfl, rfl, rfl, rfl⟩
  · rcases h with h | ⟨r, hf, hh⟩
    · exact absurd h hc
    · rw [po_skip hash embed storeFail db userId st cid hc
        (by simp [hashHit, hf, hh])]
      exact ⟨rfl, rfl, rfl, rfl, rfl, rfl⟩

/-- With a total provider and a reliable store, one iteration leaves its
entity skip-ready. -/
theorem po_establishes_skipReady (hash : String → String) (f : String → List ℚ)
    (db : Database) (userId : Nat) (st : LoopState) (cid : Nat) :
    skipReady hash db
      (processOne hash (fun s => Except.ok (f s)) (fun _ => none) db userId
        st cid).store cid := by
  by_cases hc : generate_embedding_content db cid = ""
  · left; exact hc
  · cases hh : hashHit (st.store.find? (fun r => decide (r.contact_id = cid)))
        (hash (generate_embedding_content db cid)) with
    | true =>
      right
      rw [po_skip hash (fun s => Except.ok (f s)) (fun _ => none) db userId
        st cid hc hh]
      exact (hashHit_iff _ _).mp hh
    | false =>
      right
      rw [po_write hash (fun s => Except.ok (f s)) (fun _ => none) db userId
        st cid (f (generate_embedding_content db cid)) hc hh rfl rfl]
      refine ⟨⟨cid, userId, f (generate_embedding_content db cid),
        hash (generate_embedding_content db cid),
        strTake (generate_embedding_content db cid) 500⟩, ?_, rfl⟩
      exact find?_upsertEmb_self st.store
        ⟨cid, userId, f (generate_embedding_content db cid),
          hash (generate_embedding_content db cid),
          strTake (generate_embedding_content db cid) 500⟩

/-- Processing a different entity preserves skip-readiness. -/
theorem po_preserves_skipReady (hash : String → String)
    (embed : String → Except String (List ℚ)) (storeFail : Nat → Option String)
    (db : Database) (userId : Nat) (st : LoopState) (cid cid2 : Nat)
    (hne : cid ≠ cid2) (h : skipReady hash db st.store cid) :
    skipReady hash db
      (processOne hash embed storeFail db userId st cid2).store cid := by
  rcases processOne_store_cases hash embed storeFail db userId st cid2 with
    hs | ⟨row, hrc, _, hs⟩
  · rw [hs]; exact h
  · rw [hs]
    rcases h with h | ⟨r, hf, hh⟩
    · left; exact h
    · right
      refine ⟨r, ?_, hh⟩
      rw [find?_upsertEmb_ne st.store row cid (by rw [hrc]; exact hne)]
      exact hf

theorem foldl_preserves_skipReady (hash : String → String)
    (embed : String → Except String (List ℚ)) (storeFail : Nat → Option String)
    (db : Database) (userId : Nat) (ids : List Nat) (st : LoopState) (cid : Nat)
    (hnot : cid ∉ ids) (h : skipReady hash db st.store cid) :
    skipReady hash db
      ((ids.foldl (processOne hash embed storeFail db userId) st)).store cid := by
  induction ids generalizing st with
  | nil => exact h
  | cons a as ih =>
    simp only [List.foldl_cons]
    have hne : cid ≠ a := fun hcontra =>
      hnot (hcontra ▸ List.mem_cons_self a as)
    exact ih _ (fun hmem => hnot (List.mem_cons_of_mem a hmem))
      (po_preserves_skipReady hash embed storeFail db userId st cid a hne h)

/-- After a run with a total provider and reliable store, every processed
entity is skip-ready in the resulting store. -/
theorem runLoop_establishes_skipReady (hash : String → String)
    (f : String → List ℚ) (db : Database) (userId : Nat) (ids : List Nat)
    (st : LoopState) (hnd : ids.Nodup) :
    ∀ cid ∈ ids, skipReady hash db
      ((ids.foldl (processOne hash (fun s => Except.ok (f s)) (fun _ => none)
        db userId) st)).store cid := by
  induction ids generalizing st with
  | nil => intro cid h; simp at h
  | cons a as ih =>
    intro cid hcid
    simp only [List.foldl_cons]
    rcases List.mem_cons.mp hcid with rfl | hcid2
    · exact foldl_preserves_skipReady hash (fun s => Except.ok (f s))
        (fun _ => none) db userId as _ cid (List.nodup_cons.mp hnd).1
        (po_establishes_skipReady hash f db userId st cid)
    · exact ih _ (List.nodup_cons.mp hnd).2 cid hcid2

/-- A fold over skip-ready entities only increments `skipped`. -/
theorem foldl_all_skip (hash : String → String)
    (embed : String → Except String (List ℚ)) (storeFail : Nat → Option String)
    (db : Database) (userId : Nat) (ids : List Nat) (st : LoopState)
    (h : ∀ cid ∈ ids, skipReady hash db st.store cid) :
    ((ids.foldl (processOne hash embed storeFail db userId) st)).results.created =
      st.results.created ∧
    ((ids.foldl (processOne hash embed storeFail db userId) st)).results.updated =
      st.results.updated ∧
    ((ids.foldl (processOne hash embed storeFail db userId) st)).results.processed =
      st.results.processed ∧
    ((ids.foldl (processOne hash embed storeFail db userId) st)).results.errors =
      st.results.errors ∧
    ((ids.foldl (processOne hash embed storeFail db userId) st)).results.skipped =
      st.results.skipped + ids.length ∧
    ((ids.foldl (processOne hash embed storeFail db userId) st)).store =
      st.store := by
  induction ids generalizing st with
  | nil => exact ⟨rfl, rfl, rfl, rfl, rfl, rfl⟩
  | cons a as ih =>
    simp only [List.foldl_cons, List.length_cons]
    obtain ⟨h1, h2, h3, h4, h5, h6⟩ :=
      po_skipReady hash embed storeFail db userId st a (h a (List.mem_cons_self a as))
    have hrest : ∀ cid ∈ as, skipReady hash db
        (processOne hash embed storeFail db userId st a).store cid := by
      intro cid hc
      rw [h6]
      exact h cid (List.mem_cons_of_mem a hc)
    obtain ⟨g1, g2, g3, g4, g5, g6⟩ := ih _ hrest
    refine ⟨by rw [g1, h1], by rw [g2, h2], by rw [g3, h3], by rw [g4, h4],
      ?_, by rw [g6, h6]⟩
    rw [g5, h5]
    omega

/-- C3: with a deterministic (total) provider and a reliable store, running
the batch orchestrator twice over an unchanged database gives a second run
with zero created, zero updated, zero processed, no errors, and every
selected entity counted as skipped. -/
theorem C3_idempotence (hash : String → String) (f : String → List ℚ)
    (db : Database) (store0 : List EmbRow) (userId batchSize : Nat)
    (hnd : (db.contacts.map (fun c => c.id)).Nodup) :
    (runBatch hash (fun s => Except.ok (f s)) (fun _ => none) db
      (runBatch hash (fun s => Except.ok (f s)) (fun _ => none) db store0
        userId none batchSize).store
      userId none batchSize).results.created = 0 ∧
    (runBatch hash (fun s => Except.ok (f s)) (fun _ => none) db
      (runBatch hash (fun s => Except.ok (f s)) (fun _ => none) db store0
        userId none batchSize).store
      userId none batchSize).results.updated = 0 ∧
    (runBatch hash (fun s => Except.ok (f s)) (fun _ => none) db
      (runBatch hash (fun s => Except.ok (f s)) (fun _ => none) db store0
        userId none batchSize).store
      userId none batchSize).results.processed = 0 ∧
    (runBatch hash (fun s => Except.ok (f s)) (fun _ => none) db
      (runBatch hash (fun s => Except.ok (f s)) (fun _ => none) db store0
        userId none batchSize).store
      userId none batchSize).results.errors = [] ∧
    (runBatch hash (fun s => Except.ok (f s)) (fun _ => none) db
      (runBatch hash (fun s => Except.ok (f s)) (fun _ => none) db store0
        userId none batchSize).store
      userId none batchSize).results.skipped =
      (selectContactIds db userId none batchSize).length := by
  have hidnd : (selectContactIds db userId none batchSize).Nodup := by
    simp only [selectContactIds]
    have hsub : List.Sublist ((db.contacts.filter
        (fun c => decide (c.userId = userId ∧ c.deletedAt = none))).take
          batchSize) db.contacts :=
      (List.take_sublist _ _).trans (List.filter_sublist _)
    exact (List.Sublist.map (fun c => c.id) hsub).nodup hnd
  have hready := runLoop_establishes_skipReady hash f db userId
    (selectContactIds db userId none batchSize) (initialState store0) hidnd
  obtain ⟨g1, g2, g3, g4, g5, g6⟩ := foldl_all_skip hash
    (fun s => Except.ok (f s)) (fun _ => none) db userId
    (selectContactIds db userId none batchSize)
    (initialState (runBatch hash (fun s => Except.ok (f s)) (fun _ => none) db
      store0 userId none batchSize).store)
    (fun cid hc => hready cid hc)
  have g5x : (List.foldl (processOne hash (fun s => Except.ok (f s))
      (fun _ => none) db userId)
      (initialState (runBatch hash (fun s => Except.ok (f s)) (fun _ => none) db
        store0 userId none batchSize).store)
      (selectContactIds db userId none batchSize)).results.skipped =
      (selectContactIds db userId none batchSize).length := by
    rw [g5]
    simp [initialState, emptyResults]
  exact ⟨g1, g2, g3, g4, g5x⟩

/-- Witness for C3: two successive batch runs of user 7 over `exDb` with the
identity hash and a constant provider; the single selected contact is skipped
on the second run. -/
theorem C3_witness :
    (runBatch (fun s => s) (fun _ => Except.ok ([1] : List ℚ)) (fun _ => none)
      exDb
      (runBatch (fun s => s) (fun _ => Except.ok ([1] : List ℚ)) (fun _ => none)
        exDb [] 7 none 50).store 7 none 50).results.created = 0 ∧
    (runBatch (fun s => s) (fun _ => Except.ok ([1] : List ℚ)) (fun _ => none)
      exDb
      (runBatch (fun s => s) (fun _ => Except.ok ([1] : List ℚ)) (fun _ => none)
        exDb [] 7 none 50).store 7 none 50).results.updated = 0 ∧
    (runBatch (fun s => s) (fun _ => Except.ok ([1] : List ℚ)) (fun _ => none)
      exDb
      (runBatch (fun s => s) (fun _ => Except.ok ([1] : List ℚ)) (fun _ => none)
        exDb [] 7 none 50).store 7 none 50).results.processed = 0 ∧
    (runBatch (fun s => s) (fun _ => Except.ok ([1] : List ℚ)) (fun _ => none)
      exDb
      (runBatch (fun s => s) (fun _ => Except.ok ([1] : List ℚ)) (fun _ => none)
        exDb [] 7 none 50).store 7 none 50).results.errors = [] ∧
    (runBatch (fun s => s) (fun _ => Except.ok ([1] : List ℚ)) (fun _ => none)
      exDb
      (runBatch (fun s => s) (fun _ => Except.ok ([1] : List ℚ)) (fun _ => none)
        exDb [] 7 none 50).store 7 none 50).results.skipped = 1 :=
  C3_idempotence (fun s => s) (fun _ => [1]) exDb [] 7 50 (by decide)

end ContactX
